import Mathlib

/-!
Verification of the `sketchy` library (count-min sketches and rolling /
rollup rate counters) against its natural-language specification.

The Go source is shallowly embedded as follows:
* `uint64` values are `Nat` with wrap-around written explicitly as `% 2 ^ 64`;
* `int` / `time.Duration` / `time.Time` values are `Int` (instants and
  durations are in nanoseconds, as in Go's `time` package);
* `float64` arithmetic of the rate computations is modelled by exact
  rational arithmetic (`ℚ`); the claims under study are settled at inputs
  where the two agree;
* the sketch matrix (`[]uint64` in Go) is modelled as a total function
  `Nat → Nat`, updated pointwise; Go indexing is always in range for the
  states the library constructs;
* the injected clock (`clock func() time.Time`) is modelled by passing the
  current instant `now` explicitly to the operations that read it;
* the per-counter mutex only serialises calls and is dropped;
* runtime panics reachable in a constructor (`RollupCounter` with an empty
  duration list or a zero divisor duration) are modelled as `none`.
-/

/- Batteries marks the `Rat` arithmetic operations `@[irreducible]`, which
blocks `decide` from evaluating concrete rate computations at elaboration
time; restore default reducibility for them within this file. -/
attribute [local semireducible] Rat.add Rat.mul Rat.inv Rat.sub Rat.ofScientific

/-! ### hash.go -/

/-- FNV-1 offset basis, from `hash.go` (constants taken from `hash/fnv`). -/
def fnvOffset64 : Nat := 14695981039346656037

/-- FNV-1 prime, from `hash.go`. -/
def fnvPrime64 : Nat := 1099511628211

/-- Modulus of Go `uint64` arithmetic. -/
def uint64Mod : Nat := 2 ^ 64

/-- The Go constant `math.MaxUint64`. -/
def maxUint64 : Nat := 2 ^ 64 - 1

/-- Go `func (k hashKernel) hash(index uint) uint64`:
`(v & 0xffffffff) + (v>>32)*uint64(index)` in `uint64` arithmetic. -/
def hashKernel.hash (k : Nat) (index : Nat) : Nat :=
  ((k &&& 0xffffffff) + (k >>> 32) * index) % uint64Mod

/-- Go `func multihash(key []byte) hashKernel`: FNV-1 fold of the key bytes.
`k *= fnvPrime64` wraps in `uint64`; `k ^= uint64(b)` with `b` a byte
(entries of `key` are bytes, i.e. `< 256`; the `% uint64Mod` is the Go
byte-to-uint64 conversion, an identity on bytes). -/
def multihash (key : List Nat) : Nat :=
  key.foldl (fun k b => (k * fnvPrime64 % uint64Mod) ^^^ (b % uint64Mod)) fnvOffset64

/-! ### Count-min sketch (`sketch.go`) -/

/-- Go `var DefaultEpsilon = 0.999`. -/
def DefaultEpsilon : ℚ := 999 / 1000

/-- Go `var DefaultDelta = 0.99`. -/
def DefaultDelta : ℚ := 99 / 100

/-- The Go `uint64(delta)` conversion of a (64-bit) signed integer. -/
def uint64OfInt (d : Int) : Nat := (d % (2 ^ 64 : Int)).toNat

/-- Go `type fnvSketch struct`.  `Matrix` (`[]uint64` of length
`Width * Depth` in Go) is modelled as a total function from cell index to
cell value. -/
structure fnvSketch where
  Epsilon : ℚ
  Delta : ℚ
  Width : Nat
  Depth : Nat
  Matrix : Nat → Nat

/-- Width and depth computed by `NewSketch` via the `float64` expressions
`uint(math.Ceil(math.E / (1 - epsilon)))` and
`uint(math.Ceil(math.Log(1 / (1 - delta))))`.  The float computation is
not modelled; the source's own doc comment records the resulting values
`2719` and `5` at the default parameters `epsilon = 0.999`, `delta = 0.99`,
which are the only parameters the claims under study exercise (all the
counters in question are built with `epsilon = delta = 0`, i.e. defaults). -/
def sketchWidth : Nat := 2719

/-- Depth companion of `sketchWidth`; see its doc comment. -/
def sketchDepth : Nat := 5

/-- Go `func NewSketch(epsilon, delta float64) CountSketch`. -/
def NewSketch (epsilon delta : ℚ) : fnvSketch :=
  let e := if epsilon = 0 then DefaultEpsilon else epsilon
  let d := if delta = 0 then DefaultDelta else delta
  { Epsilon := e, Delta := d, Width := sketchWidth, Depth := sketchDepth,
    Matrix := fun _ => 0 }

/-- The cell a key kernel `k` touches in row `i`: the Go index
`k := i*r.Width + j` with `j := uint(k.hash(i)) % r.Width`. -/
def fnvSketch.cell (r : fnvSketch) (k : Nat) (i : Nat) : Nat :=
  i * r.Width + hashKernel.hash k i % r.Width

/-- The body of the `Count` loop, one row `i`: add `dn` (the converted
delta) to the touched cell in `uint64` arithmetic and track the minimum
post-update value.  The accumulator is the matrix together with `min`. -/
def countStep (cell : Nat → Nat) (dn : Nat) (acc : (Nat → Nat) × Nat)
    (i : Nat) : (Nat → Nat) × Nat :=
  let idx := cell i
  let v := (acc.1 idx + dn) % uint64Mod
  (fun x => if x = idx then v else acc.1 x, if v < acc.2 then v else acc.2)

/-- The body of the `Query` loop, one row `i`: read the touched cell and
track the minimum. -/
def queryStep (m : Nat → Nat) (cell : Nat → Nat) (mn : Nat) (i : Nat) : Nat :=
  let v := m (cell i)
  if v < mn then v else mn

/-- Go `func (r *fnvSketch) Count(key []byte, delta int) uint64`.
Adds `uint64(delta)` to one cell per row (row `i`, column
`uint(k.hash(i)) % r.Width`), tracking the minimum of the post-update cell
values; returns the updated sketch and that minimum (`min` starts at
`math.MaxUint64`). -/
def fnvSketch.Count (r : fnvSketch) (key : List Nat) (delta : Int) :
    fnvSketch × Nat :=
  let k := multihash key
  let res := (List.range r.Depth).foldl
    (countStep (r.cell k) (uint64OfInt delta)) (r.Matrix, maxUint64)
  ({ r with Matrix := res.1 }, res.2)

/-- Go `func (r *fnvSketch) Query(key []byte) uint64`: same traversal as
`Count`, no mutation, minimum of the read cells. -/
def fnvSketch.Query (r : fnvSketch) (key : List Nat) : Nat :=
  let k := multihash key
  (List.range r.Depth).foldl (queryStep r.Matrix (r.cell k)) maxUint64

/-! ### Rolling counter (`rolling.go`) -/

/-- The Go constant `time.Second`, in nanoseconds. -/
def second : Int := 1000000000

/-- Go `type sketchWithTime struct`: a sketch paired with its bucket start
instant (`time.Time`, nanoseconds).  `CountSketch *fnvSketch` is a nullable
pointer, hence `Option`. -/
structure sketchWithTime where
  CountSketch : Option fnvSketch
  Time : Int

/-- Go `func (b *sketchWithTime) Count`: delegates to the contained sketch;
a nil sketch answers 0 without mutation. -/
def sketchWithTime.Count (b : sketchWithTime) (key : List Nat) (delta : Int) :
    sketchWithTime × Nat :=
  match b.CountSketch with
  | none => (b, 0)
  | some s =>
    let r := s.Count key delta
    ({ b with CountSketch := some r.1 }, r.2)

/-- Go `func (b *sketchWithTime) Query`: delegates; nil sketch answers 0. -/
def sketchWithTime.Query (b : sketchWithTime) (key : List Nat) : Nat :=
  match b.CountSketch with
  | none => 0
  | some s => s.Query key

/-- Go `type rollingCounter struct`.  The injected `clock` is modelled by
passing `now` explicitly to the operations; the mutex is dropped. -/
structure rollingCounter where
  Epsilon : ℚ
  Delta : ℚ
  Interval : Int
  NumIntervals : Int
  buckets : List sketchWithTime

/-- Go `func RollingCounter(epsilon, delta float64, interval time.Duration,
num int) RateSketch`: the public constructor.  Note that it performs no
validation and has no error return in the source. -/
def RollingCounter (epsilon delta : ℚ) (interval : Int) (num : Int) :
    rollingCounter :=
  { Epsilon := epsilon, Delta := delta, Interval := interval,
    NumIntervals := num, buckets := [] }

/-- The loop body of `rollingCounter.query` (the rate walk), recursing over
the bucket list newest-first (the Go loop runs `i` from `len(buckets)-1`
down to `0`, so it is invoked on `rl.buckets.reverse`).  `isLast` records
whether the head is the bucket at index `len(rl.buckets)-1` (the only one
eligible for the `latest` override).  State: cursor `now`, remaining
`interval`, accumulators `tc` (float64 as ℚ) and `td`. -/
def rollingCounter.queryLoop (rl : rollingCounter) (key : List Nat)
    (latest : Nat) (intervalStart : Int) :
    List sketchWithTime → Bool → Int → Int → ℚ → Int → ℚ × Int
  | [], _, _, _, tc, td => (tc, td)
  | b :: rest, isLast, now, interval, tc, td =>
    -- loop condition `interval > 0 && i >= 0`, checked before the body
    if interval ≤ 0 then (tc, td)
    else
      -- d := now.Sub(rl.buckets[i].Time); if d <= 0 { continue }
      let d : Int := now - b.Time
      if d ≤ 0 then
        rl.queryLoop key latest intervalStart rest false now interval tc td
      else
        let interval2 := interval - d
        -- count in the bucket, with the latest-override on the newest
        let n : ℚ := if isLast && latest != 0 then (latest : ℚ)
                     else (b.Query key : ℚ)
        -- partial-bucket weighting
        if intervalStart > b.Time then
          let endT : Int := if b.Time + rl.Interval > now then now
                            else b.Time + rl.Interval
          let d2 : Int := endT - intervalStart
          if d - d2 > rl.Interval then (tc, td)  -- break
          else
            rl.queryLoop key latest intervalStart rest false b.Time interval2
              (tc + n * (d2 : ℚ) / (d : ℚ)) (td + (now - intervalStart))
        else
          rl.queryLoop key latest intervalStart rest false b.Time interval2
            (tc + n) (td + d)

/-- Go `func (rl *rollingCounter) query(key, now, interval, latest)`: the rate
walk.  Returns `(totalCount, totalDuration)`, or `(0, 0)` when the covered
duration is under one second. -/
def rollingCounter.query (rl : rollingCounter) (key : List Nat) (now : Int)
    (interval : Int) (latest : Nat) : ℚ × Int :=
  let intervalStart := now - interval
  let r := rl.queryLoop key latest intervalStart rl.buckets.reverse true
    now interval 0 0
  if r.2 < second then (0, 0) else r

/-- The closure `getWithDefault` in `rollingCounter.count`. -/
def getWithDefault (v def_ : ℚ) : ℚ := if v = 0 then def_ else v

/-- Go `func (rl *rollingCounter) count(key, delta, now, interval)`: rotates
buckets as needed, applies `delta` to the newest bucket's sketch, then runs
the rate walk with the updated latest count.  Returns the updated counter
and the walk's result.  (The `none` branch of the second match is
unreachable: after rotation the bucket list is never empty.) -/
def rollingCounter.count (rl : rollingCounter) (key : List Nat) (delta : Int)
    (now : Int) (interval : Int) : rollingCounter × (ℚ × Int) :=
  let epsilon := getWithDefault rl.Epsilon DefaultEpsilon
  let d := getWithDefault rl.Delta DefaultDelta
  let rl1 : rollingCounter :=
    match rl.buckets.getLast? with
    | none =>
      { rl with buckets :=
          [{ CountSketch := some (NewSketch epsilon d), Time := now }] }
    | some lastB =>
      if now - lastB.Time ≥ rl.Interval then
        let newSketch : sketchWithTime :=
          { CountSketch := some (NewSketch epsilon d), Time := now }
        if (rl.buckets.length : Int) ≥ rl.NumIntervals then
          -- shift buckets over by one
          { rl with buckets := rl.buckets.tail ++ [newSketch] }
        else
          { rl with buckets := rl.buckets ++ [newSketch] }
      else rl
  match rl1.buckets.getLast? with
  | none => (rl1, rl1.query key now interval 0)
  | some lastB =>
    let r := lastB.Count key delta
    let rl2 := { rl1 with buckets := rl1.buckets.dropLast ++ [r.1] }
    (rl2, rl2.query key now interval r.2)

/-- Go `func (rl *rollingCounter) Query(key []byte, interval time.Duration)
float64`; `now` is the value the injected clock returns. -/
def rollingCounter.Query (rl : rollingCounter) (now : Int) (key : List Nat)
    (interval : Int) : ℚ :=
  if rl.buckets.isEmpty then 0
  else
    let r := rl.query key now interval 0
    if r.2 = 0 then 0 else r.1 / (r.2 : ℚ) * (second : ℚ)

/-- Go `func (rl *rollingCounter) Count(key, delta, interval) float64`;
returns the updated counter and the reported rate. -/
def rollingCounter.Count (rl : rollingCounter) (now : Int) (key : List Nat)
    (delta : Int) (interval : Int) : rollingCounter × ℚ :=
  let r := rl.count key delta now interval
  (r.1, if r.2.2 = 0 then 0 else r.2.1 / (r.2.2 : ℚ) * (second : ℚ))

/-! ### Serialization (`rollingCounter.GobEncode` / `GobDecode`)

The gob wire format itself belongs to Go's standard library (the spec's §1
treats persistence framing as an external collaborator).  What the
repository's code contributes is *which* values are encoded and decoded,
and in which order: `GobEncode` feeds `Epsilon, Delta, Interval,
NumIntervals, buckets` (in that order) to a lossless encoder, and
`GobDecode` reads them back in the same order into the same fields.  The
byte stream is therefore abstracted as the ordered record of the encoded
values. -/

/-- The values `rollingCounter.GobEncode` writes, in encode order. -/
structure rollingCounterGob where
  Epsilon : ℚ
  Delta : ℚ
  Interval : Int
  NumIntervals : Int
  buckets : List sketchWithTime

/-- Go `func (rl *rollingCounter) GobEncode() ([]byte, error)`: encodes the
five fields in order (the encoder cannot fail on these field types). -/
def rollingCounter.GobEncode (rl : rollingCounter) : rollingCounterGob :=
  { Epsilon := rl.Epsilon, Delta := rl.Delta, Interval := rl.Interval,
    NumIntervals := rl.NumIntervals, buckets := rl.buckets }

/-- Go `func (rl *rollingCounter) GobDecode(data []byte) error`: resets the
receiver's five fields from the decoded values, in the same order. -/
def rollingCounter.GobDecode (_rl : rollingCounter) (data : rollingCounterGob) :
    rollingCounter :=
  { Epsilon := data.Epsilon, Delta := data.Delta, Interval := data.Interval,
    NumIntervals := data.NumIntervals, buckets := data.buckets }

/-! ### Rollup counter -/

/-- Go `type rollupCounter struct`.  As with `rollingCounter`, the clock is
passed explicitly. -/
structure rollupCounter where
  Levels : List rollingCounter

/-- Go `func RollupCounter(epsilon, delta float64, durations ...time.Duration)
RateSketch`: level `i-1` is built from `durations[i-1]` (its interval) and
`durations[i]` (its horizon); `NumIntervals = to/from`, plus one when
`to % from > 0`.  Go `int64` division truncates toward zero (`Int.tdiv` /
`Int.tmod`).  No validation is performed in the source, but two inputs
panic at runtime, modelled as `none`: an empty duration list makes
`make([]*rollingCounter, len(durations)-1)` panic on a negative length,
and a zero in any divisor position (`from = durations[i-1]`, i.e. every
position but the last) makes `to / from` panic with division by zero. -/
def RollupCounter (epsilon delta : ℚ) (durations : List Int) :
    Option rollupCounter :=
  if durations.isEmpty then none
  else if durations.dropLast.contains 0 then none
  else some { Levels := (durations.zip durations.tail).map (fun p =>
      { Epsilon := epsilon, Delta := delta, Interval := p.1,
        NumIntervals :=
          Int.tdiv p.2 p.1 + (if Int.tmod p.2 p.1 > 0 then 1 else 0),
        buckets := [] }) }

/-- The level loop of `rollupCounter.Query`: walks levels finest to
coarsest, breaking when the remaining interval is ≤ 0; each level's walk
result `(n, d)` is accumulated, the cursor moves back by `d` and the
remaining interval shrinks by `d`. -/
def rollupCounter.queryLevels (key : List Nat) :
    List rollingCounter → Int → Int → ℚ × Int → ℚ × Int
  | [], _, _, acc => acc
  | c :: rest, now, interval, acc =>
    if interval ≤ 0 then acc
    else
      let r := c.query key now interval 0
      rollupCounter.queryLevels key rest (now - r.2) (interval - r.2)
        (acc.1 + r.1, acc.2 + r.2)

/-- Go `func (rc *rollupCounter) Query(key []byte, interval time.Duration)
float64`. -/
def rollupCounter.Query (rc : rollupCounter) (now : Int) (key : List Nat)
    (interval : Int) : ℚ :=
  let r := rollupCounter.queryLevels key rc.Levels now interval (0, 0)
  if r.2 = 0 then 0 else r.1 / (r.2 : ℚ) * (second : ℚ)

/-- The level loop of `rollupCounter.Count`: each level records the delta
via its own `count` (the remaining interval is clamped at 0 first, the
cursor `now` is not moved). -/
def rollupCounter.countLevels (key : List Nat) (delta : Int) (now : Int) :
    List rollingCounter → Int → ℚ × Int → List rollingCounter × (ℚ × Int)
  | [], _, acc => ([], acc)
  | c :: rest, interval, acc =>
    let interval1 := if interval < 0 then 0 else interval
    let r := c.count key delta now interval1
    let rec_ := rollupCounter.countLevels key delta now rest
      (interval1 - r.2.2) (acc.1 + r.2.1, acc.2 + r.2.2)
    (r.1 :: rec_.1, rec_.2)

/-- Go `func (rc *rollupCounter) Count(key, delta, interval) float64`;
returns the updated counter and the reported rate. -/
def rollupCounter.Count (rc : rollupCounter) (now : Int) (key : List Nat)
    (delta : Int) (interval : Int) : rollupCounter × ℚ :=
  let r := rollupCounter.countLevels key delta now rc.Levels interval (0, 0)
  (⟨r.1⟩, if r.2.2 = 0 then 0 else r.2.1 / (r.2.2 : ℚ) * (second : ℚ))

/-! ### Definitions following the specification's words

These are *not* translations of the source; they restate what the spec (or
a claim) says, to be compared with the source-derived definitions above. -/

/-- Modelled from the spec (§3, "Hash kernel"): FNV-1 as a plain recursion —
start with the offset; for each byte, multiply by the prime then XOR with
the byte — in 64-bit arithmetic. -/
def fnv1spec (acc : Nat) : List Nat → Nat
  | [] => acc
  | b :: rest => fnv1spec ((acc * fnvPrime64 % uint64Mod) ^^^ (b % uint64Mod)) rest

/-- Modelled from the spec (claim C1's reading of §4.D.2): identical to
`rollingCounter.queryLoop` except that in the partial-bucket branch the
duration contribution is `originalNow − intervalStart` — the *original*
query instant minus the window start — instead of the code's cursor-based
`now − intervalStart`. -/
def rollingCounter.queryLoopSpecC1 (rl : rollingCounter) (key : List Nat)
    (latest : Nat) (intervalStart : Int) (originalNow : Int) :
    List sketchWithTime → Bool → Int → Int → ℚ → Int → ℚ × Int
  | [], _, _, _, tc, td => (tc, td)
  | b :: rest, isLast, now, interval, tc, td =>
    if interval ≤ 0 then (tc, td)
    else
      let d : Int := now - b.Time
      if d ≤ 0 then
        rl.queryLoopSpecC1 key latest intervalStart originalNow rest false
          now interval tc td
      else
        let interval2 := interval - d
        let n : ℚ := if isLast && latest != 0 then (latest : ℚ)
                     else (b.Query key : ℚ)
        if intervalStart > b.Time then
          let endT : Int := if b.Time + rl.Interval > now then now
                            else b.Time + rl.Interval
          let d2 : Int := endT - intervalStart
          if d - d2 > rl.Interval then (tc, td)
          else
            rl.queryLoopSpecC1 key latest intervalStart originalNow rest false
              b.Time interval2 (tc + n * (d2 : ℚ) / (d : ℚ))
              (td + (originalNow - intervalStart))
        else
          rl.queryLoopSpecC1 key latest intervalStart originalNow rest false
            b.Time interval2 (tc + n) (td + d)

/-- Wrapper for `queryLoopSpecC1` mirroring `rollingCounter.query`. -/
def rollingCounter.querySpecC1 (rl : rollingCounter) (key : List Nat)
    (now : Int) (interval : Int) (latest : Nat) : ℚ × Int :=
  let intervalStart := now - interval
  let r := rl.queryLoopSpecC1 key latest intervalStart now rl.buckets.reverse
    true now interval 0 0
  if r.2 < second then (0, 0) else r

/-- Modelled from the spec (§4.E, claim C4): one step of the rollup query
walk, as a fold step over the levels carrying
`(totalCount, totalDuration, now, interval)`; once the remaining interval
is ≤ 0 the walk has stopped and further levels contribute nothing. -/
def rollupQuerySpecStep (key : List Nat) (acc : ℚ × Int × Int × Int)
    (c : rollingCounter) : ℚ × Int × Int × Int :=
  if acc.2.2.2 ≤ 0 then acc
  else
    let r := c.query key acc.2.2.1 acc.2.2.2 0
    (acc.1 + r.1, acc.2.1 + r.2, acc.2.2.1 - r.2, acc.2.2.2 - r.2)

/-- Modelled from the spec (§4.E, claim C4): walk `levels[0..L-1]` in
order, each level consuming a prefix of the remaining interval from the
cursor backward via its own rate walk with `latestOverride = 0`; final
rate `(totalCount / totalDuration) · 1 second`, or 0 when
`totalDuration = 0`. -/
def rollupQuerySpec (rc : rollupCounter) (now : Int) (key : List Nat)
    (interval : Int) : ℚ :=
  let r := rc.Levels.foldl (rollupQuerySpecStep key) (0, 0, now, interval)
  if r.2.1 = 0 then 0 else r.1 / ((r.2.1 : Int) : ℚ) * (second : ℚ)

/-! ### Operation sequences (for the bucket-cap invariant) -/

/-- A public operation on a rolling counter. -/
inductive rateOp where
  | countOp (key : List Nat) (delta : Int) (now : Int) (interval : Int)
  | queryOp (key : List Nat) (now : Int) (interval : Int)

/-- Apply one public operation.  `Count` may mutate the counter; `Query`
performs no writes in the source (`rollingCounter.Query` and the rate walk
only read `rl`), so it leaves the counter unchanged. -/
def rollingCounter.applyOp (rl : rollingCounter) : rateOp → rollingCounter
  | .countOp key delta now interval => (rl.Count now key delta interval).1
  | .queryOp _ _ _ => rl

/-- Apply a sequence of public operations, oldest first. -/
def rollingCounter.applyOps (rl : rollingCounter) : List rateOp → rollingCounter
  | [] => rl
  | op :: ops => (rl.applyOp op).applyOps ops

/-! ### Concrete instances used by the claims -/

/-- Sixty seconds in nanoseconds. -/
def minuteNs : Int := 60 * second

/-- The byte string `"key"` used throughout the repository's tests. -/
def keyBytes : List Nat := [107, 101, 121]

/-- The counter of claim C2 (the `Going back in time` test): starting from
`RollingCounter(0, 0, time.Minute, 10)`, ten `Count` writes of deltas
1, 2, …, 10, the i-th at instant `i` minutes. -/
def c2Counter : rollingCounter :=
  (List.range 10).foldl
    (fun rl i => (rl.count keyBytes ((i : Int) + 1) (((i : Int) + 1) * minuteNs) 0).1)
    (RollingCounter 0 0 minuteNs 10)

/-- A two-bucket counter exhibiting the partial-bucket weighting on a
bucket that is not the newest (sketches empty: only durations matter). -/
def c1Counter : rollingCounter :=
  { Epsilon := 0, Delta := 0, Interval := minuteNs, NumIntervals := 3,
    buckets := [{ CountSketch := none, Time := 0 },
                { CountSketch := none, Time := minuteNs }] }

/-- A bucket opened at instant 0 holding one write of 60, as seeded by the
`Query` scenario of `rolling_test.go`. -/
def tBucket0 : sketchWithTime :=
  { CountSketch := some ((NewSketch 0 0).Count keyBytes 60).1, Time := 0 }

/-- A bucket opened at minute 1 holding one write of 30 (same scenario). -/
def tBucket1 : sketchWithTime :=
  { CountSketch := some ((NewSketch 0 0).Count keyBytes 30).1, Time := minuteNs }

/-- A one-bucket counter (interval one minute, cap 3), as in the `Query`
scenario of `rolling_test.go`. -/
def tCounter1 : rollingCounter :=
  { Epsilon := 0, Delta := 0, Interval := minuteNs, NumIntervals := 3,
    buckets := [tBucket0] }

/-- The same counter after the scenario appends a second bucket. -/
def tCounter2 : rollingCounter :=
  { tCounter1 with buckets := [tBucket0, tBucket1] }

/-- The two-duration rollup counter `RollupCounter(0, 0, 1min, 10min)`
constructs (its duration list is non-empty with no zero divisor, so the
construction succeeds). -/
def tRollup : rollupCounter :=
  (RollupCounter 0 0 [minuteNs, 10 * minuteNs]).getD { Levels := [] }

/-! ## Cross-validation of the embedding against `rolling_test.go`

The four rate values the `Query` scenario of the repository's test suite
asserts (2.0, 1.0, 90/61 and 2/3) are reproduced exactly by the
embedding. -/

example : tCounter1.Query (30 * second) keyBytes (15 * second) = 2 := by decide
example : tCounter1.Query (60 * second) keyBytes (90 * second) = 1 := by decide
example : tCounter2.Query (61 * second) keyBytes (90 * second) = 90 / 61 := by
  decide
example : tCounter2.Query (120 * second) keyBytes (90 * second) = 2 / 3 := by
  decide

/-! ## Helper lemmas -/

theorem fnv1spec_eq_foldl (l : List Nat) : ∀ acc : Nat,
    fnv1spec acc l
      = l.foldl (fun k b => (k * fnvPrime64 % uint64Mod) ^^^ (b % uint64Mod)) acc := by
  induction l with
  | nil => intro acc; rfl
  | cons b rest ih => intro acc; simp [fnv1spec, List.foldl, ih]

theorem rollupQuerySpecStep_stopped (key : List Nat)
    (levels : List rollingCounter) :
    ∀ acc : ℚ × Int × Int × Int, acc.2.2.2 ≤ 0 →
      levels.foldl (rollupQuerySpecStep key) acc = acc := by
  induction levels with
  | nil => intro acc _; rfl
  | cons c rest ih =>
    intro acc h
    rw [List.foldl_cons]
    have hs : rollupQuerySpecStep key acc c = acc := by
      rw [rollupQuerySpecStep, if_pos h]
    rw [hs]; exact ih acc h

theorem queryLevels_eq_foldl (key : List Nat) (levels : List rollingCounter) :
    ∀ (now interval : Int) (tc : ℚ) (td : Int),
      rollupCounter.queryLevels key levels now interval (tc, td)
        = ((levels.foldl (rollupQuerySpecStep key) (tc, td, now, interval)).1,
           (levels.foldl (rollupQuerySpecStep key) (tc, td, now, interval)).2.1) := by
  induction levels with
  | nil => intro now interval tc td; rfl
  | cons c rest ih =>
    intro now interval tc td
    by_cases h : interval ≤ 0
    · rw [List.foldl_cons]
      have hs : rollupQuerySpecStep key (tc, td, now, interval) c
          = (tc, td, now, interval) := by
        rw [rollupQuerySpecStep, if_pos h]
      rw [hs, rollupQuerySpecStep_stopped key rest _ h]
      simp only [rollupCounter.queryLevels, if_pos h]
    · have hs : rollupQuerySpecStep key (tc, td, now, interval) c
          = (tc + (c.query key now interval 0).1,
             td + (c.query key now interval 0).2,
             now - (c.query key now interval 0).2,
             interval - (c.query key now interval 0).2) := by
        rw [rollupQuerySpecStep, if_neg h]
      rw [List.foldl_cons, hs]
      simp only [rollupCounter.queryLevels, if_neg h]
      exact ih _ _ _ _

theorem getWithDefault_shape (v d : ℚ) :
    getWithDefault v d = if v = 0 then d else v := rfl

/-- Both components of the first projection of `rollingCounter.count`:
`NumIntervals` is untouched, and the bucket list stays within the cap
whenever it started within it (and the cap is at least 1). -/
theorem count_fst_spec (rl : rollingCounter) (key : List Nat)
    (delta now interval : Int) :
    (rl.count key delta now interval).1.NumIntervals = rl.NumIntervals ∧
    (1 ≤ rl.NumIntervals → (rl.buckets.length : Int) ≤ rl.NumIntervals →
      ((rl.count key delta now interval).1.buckets.length : Int)
        ≤ rl.NumIntervals) := by
  unfold rollingCounter.count
  cases hb : rl.buckets.getLast? with
  | none =>
    rw [List.getLast?_eq_none_iff] at hb
    simp only [hb, List.getLast?_nil]
    simp only [List.getLast?, List.getLast, List.dropLast]
    refine ⟨by trivial, fun h1 _ => ?_⟩
    simpa using h1
  | some lastB =>
    have hne : rl.buckets ≠ [] := by
      intro h; rw [h] at hb; exact Option.noConfusion hb
    have hlen1 : 1 ≤ rl.buckets.length := by
      cases h : rl.buckets with
      | nil => exact absurd h hne
      | cons x xs => simp
    simp only [hb]
    by_cases hrot : now - lastB.Time ≥ rl.Interval
    · rw [if_pos hrot]
      by_cases hfull : (rl.buckets.length : Int) ≥ rl.NumIntervals
      · rw [if_pos hfull]
        rw [List.getLast?_concat]
        refine ⟨rfl, fun h1 h2 => ?_⟩
        simp only [List.length_append, List.length_dropLast, List.length_tail,
          List.length_cons, List.length_nil]
        push_cast
        omega
      · rw [if_neg hfull]
        rw [List.getLast?_concat]
        refine ⟨rfl, fun h1 h2 => ?_⟩
        simp only [List.length_append, List.length_dropLast,
          List.length_cons, List.length_nil]
        push_cast
        omega
    · rw [if_neg hrot]
      rw [hb]
      refine ⟨rfl, fun h1 h2 => ?_⟩
      simp only [List.length_append, List.length_dropLast, List.length_cons,
        List.length_nil]
      push_cast
      omega

/-- Lemma: `applyOp` preserves `NumIntervals` and the bucket cap. -/
theorem applyOp_spec (rl : rollingCounter) (op : rateOp) :
    (rl.applyOp op).NumIntervals = rl.NumIntervals ∧
    (1 ≤ rl.NumIntervals → (rl.buckets.length : Int) ≤ rl.NumIntervals →
      ((rl.applyOp op).buckets.length : Int) ≤ rl.NumIntervals) := by
  cases op with
  | countOp key delta now interval =>
    have h := count_fst_spec rl key delta now interval
    simp only [rollingCounter.applyOp, rollingCounter.Count]
    exact h
  | queryOp key now interval => exact ⟨rfl, fun _ h => h⟩

theorem applyOps_spec (ops : List rateOp) : ∀ rl : rollingCounter,
    (rl.applyOps ops).NumIntervals = rl.NumIntervals ∧
    (1 ≤ rl.NumIntervals → (rl.buckets.length : Int) ≤ rl.NumIntervals →
      ((rl.applyOps ops).buckets.length : Int) ≤ rl.NumIntervals) := by
  induction ops with
  | nil => intro rl; exact ⟨rfl, fun _ h => h⟩
  | cons op rest ih =>
    intro rl
    obtain ⟨hA1, hA2⟩ := applyOp_spec rl op
    obtain ⟨hB1, hB2⟩ := ih (rl.applyOp op)
    simp only [rollingCounter.applyOps]
    rw [hA1] at hB1 hB2
    exact ⟨hB1, fun hN hlen => hB2 hN (hA2 hN hlen)⟩

/-- Cells touched by the `Count` fold at rows outside `l` keep their
starting value. -/
theorem countFold_untouched (cell : Nat → Nat) (dn : Nat) (l : List Nat) :
    ∀ (acc : (Nat → Nat) × Nat) (x : Nat), (∀ i ∈ l, x ≠ cell i) →
      (l.foldl (countStep cell dn) acc).1 x = acc.1 x := by
  induction l with
  | nil => intro acc x _; rfl
  | cons i t ih =>
    intro acc x hx
    rw [List.foldl_cons]
    rw [ih (countStep cell dn acc i) x
      (fun j hj => hx j (List.mem_cons_of_mem _ hj))]
    simp only [countStep]
    rw [if_neg (hx i (List.mem_cons_self i t))]

/-- The minimum tracked by the `Count` fold equals the `Query` fold over
the final matrix, provided the rows of `l` touch pairwise distinct
cells. -/
theorem countFold_min (cell : Nat → Nat) (dn : Nat) (l : List Nat) :
    ∀ acc : (Nat → Nat) × Nat, l.Pairwise (fun a b => cell a ≠ cell b) →
      (l.foldl (countStep cell dn) acc).2
        = l.foldl (queryStep (l.foldl (countStep cell dn) acc).1 cell) acc.2 := by
  induction l with
  | nil => intro acc _; rfl
  | cons i t ih =>
    intro acc hp
    rw [List.pairwise_cons] at hp
    rw [List.foldl_cons, List.foldl_cons, ih (countStep cell dn acc i) hp.2]
    congr 1
    have hM : (t.foldl (countStep cell dn) (countStep cell dn acc i)).1 (cell i)
        = (countStep cell dn acc i).1 (cell i) :=
      countFold_untouched cell dn t _ (cell i) (fun j hj => hp.1 j hj)
    simp only [queryStep]
    rw [hM]
    simp [countStep]

/-- Distinct rows touch distinct cells (the rows' column ranges are
disjoint when the width is positive). -/
theorem cell_ne_of_row_ne (W : Nat) (hW : 0 < W) (h : Nat → Nat) :
    ∀ {i j : Nat}, i ≠ j → i * W + h i % W ≠ j * W + h j % W := by
  have key : ∀ {i j : Nat}, i < j → i * W + h i % W ≠ j * W + h j % W := by
    intro i j hij
    have h1 : h i % W < W := Nat.mod_lt _ hW
    have h2 : i * W + W ≤ j * W := by
      calc i * W + W = (i + 1) * W := (Nat.succ_mul i W).symm
        _ ≤ j * W := Nat.mul_le_mul_right W hij
    omega
  intro i j hij
  rcases Nat.lt_or_ge i j with h' | h'
  · exact key h'
  · exact fun e => (key (Nat.lt_of_le_of_ne h' (Ne.symm hij))) e.symm

/-- Covered-duration bound for the rate walk: along the walk the remaining
interval always equals `now − intervalStart` (the cursor's distance to the
window start), and the accumulated duration never exceeds the original
interval: starting from `td`, the result stays at most `td + max interval 0`. -/
theorem queryLoop_td_le (rl : rollingCounter) (key : List Nat) (latest : Nat)
    (intervalStart : Int) (bs : List sketchWithTime) :
    ∀ (isLast : Bool) (now interval : Int) (tc : ℚ) (td : Int),
      interval = now - intervalStart →
      (rl.queryLoop key latest intervalStart bs isLast now interval tc td).2
        ≤ td + max interval 0 := by
  induction bs with
  | nil =>
    intro isLast now interval tc td _
    simp only [rollingCounter.queryLoop]
    omega
  | cons b rest ih =>
    intro isLast now interval tc td h
    simp only [rollingCounter.queryLoop]
    by_cases h0 : interval ≤ 0
    · rw [if_pos h0]; omega
    · rw [if_neg h0]
      by_cases hd : now - b.Time ≤ 0
      · rw [if_pos hd]
        exact ih false now interval tc td h
      · rw [if_neg hd]
        by_cases hp : intervalStart > b.Time
        · by_cases hbr : (now - b.Time) -
              ((if b.Time + rl.Interval > now then now else b.Time + rl.Interval)
                - intervalStart) > rl.Interval
          · rw [if_pos hp, if_pos hbr]; omega
          · rw [if_pos hp, if_neg hbr]
            refine le_trans (ih false b.Time (interval - (now - b.Time)) _
              (td + (now - intervalStart)) (by omega)) (by omega)
        · rw [if_neg hp]
          refine le_trans (ih false b.Time (interval - (now - b.Time)) _
            (td + (now - b.Time)) (by omega)) (by omega)

/-- A walk over a window shorter than one second covers less than one
second and is floored to `(0, 0)`. -/
theorem query_interval_floor (rl : rollingCounter) (key : List Nat)
    (now interval : Int) (latest : Nat) (h : interval < second) :
    rl.query key now interval latest = (0, 0) := by
  simp only [rollingCounter.query]
  have hle := queryLoop_td_le rl key latest (now - interval)
    rl.buckets.reverse true now interval 0 0 (by omega)
  have hsec : (0 : Int) < second := by decide
  rw [if_pos (by omega)]

/-- The rollup level walk leaves the accumulator untouched when the
remaining interval is below one second: every level's walk floors to
`(0, 0)`. -/
theorem queryLevels_floor (key : List Nat) (levels : List rollingCounter) :
    ∀ (now interval : Int) (tc : ℚ) (td : Int), interval < second →
      rollupCounter.queryLevels key levels now interval (tc, td) = (tc, td) := by
  induction levels with
  | nil => intro now interval tc td _; rfl
  | cons c rest ih =>
    intro now interval tc td h
    simp only [rollupCounter.queryLevels]
    by_cases h0 : interval ≤ 0
    · rw [if_pos h0]
    · rw [if_neg h0]
      rw [query_interval_floor c key now interval 0 h]
      simpa using ih now interval tc td h

/-! ## Claims -/

/-- Claim C6: the hash kernel of a key is the FNV-1 fold of the key bytes
(offset `0xcbf29ce484222325`, prime `0x100000001b3`: multiply by the prime
then XOR each byte, in 64-bit arithmetic); the i-th family hash is
`(kernel & 0xFFFFFFFF) + (kernel >> 32) · i mod 2^64`, i.e.
`(kernel mod 2^32 + ⌊kernel / 2^32⌋ · i) mod 2^64`; and the golden values
`multihash("") = 0xcbf29ce484222325`, `multihash("abc") = 0xd8dcca186bafadcb`
from the repository's own test hold. -/
theorem multihash_fnv1_spec :
    (∀ key : List Nat, multihash key = fnv1spec fnvOffset64 key) ∧
    (∀ k i : Nat,
      hashKernel.hash k i = (k % 2 ^ 32 + k / 2 ^ 32 * i) % 2 ^ 64) ∧
    multihash [] = 0xcbf29ce484222325 ∧
    multihash [97, 98, 99] = 0xd8dcca186bafadcb := by
  refine ⟨fun key => (fnv1spec_eq_foldl key fnvOffset64).symm, fun k i => ?_,
    by decide, by decide⟩
  have h1 : (0xffffffff : Nat) = 2 ^ 32 - 1 := by decide
  rw [hashKernel.hash, uint64Mod, h1, Nat.and_pow_two_sub_one_eq_mod,
    Nat.shiftRight_eq_div_pow]

/-- Claim C2: with interval one minute and ten writes of deltas 1..10 made
one minute apart (newest bucket at minute 10), the internal rate walk
`query(key, now − 4 min, 90 s, 0)` returns exactly
`(totalCount, totalDuration) = (7, 90 s)`: buckets at or after the rewound
cursor are skipped by the `d ≤ 0` check, the bucket holding count 5
contributes fully (60 s), and the bucket holding count 4 contributes
`4 · (30 s / 60 s) = 2` over the remaining 30 s. -/
theorem c2Counter_time_reversal :
    c2Counter.query keyBytes (10 * minuteNs - 4 * minuteNs) (90 * second) 0
      = (7, 90 * second) := by decide

/-- Claim C1 is false as stated: the code sets the partial bucket's
duration contribution to `now − intervalStart` with `now` the walk's
*cursor*, not the original query instant.  On a two-bucket counter
(interval 60 s, buckets at minutes 0 and 1) queried at `now = 90 s` over
60 s, the bucket at minute 0 is partial (`intervalStart = 30 s` is after
its start); the code's walk returns total duration 60 s, while the claim's
`originalNow − intervalStart` contribution would force 90 s. -/
theorem queryLoop_partial_bucket_counterexample :
    c1Counter.query keyBytes (90 * second) (60 * second) 0
      = (0, 60 * second) ∧
    c1Counter.querySpecC1 keyBytes (90 * second) (60 * second) 0
      = (0, 90 * second) ∧
    c1Counter.query keyBytes (90 * second) (60 * second) 0
      ≠ c1Counter.querySpecC1 keyBytes (90 * second) (60 * second) 0 :=
  ⟨by decide, by decide, by decide⟩

/-- Claim C1 (amended): in the rate walk, for a bucket `b` whose start time
lies strictly before the window start `intervalStart = originalNow −
originalInterval`, and for which the break condition `d − d2 >
counter.interval` does not hold, the walk replaces the bucket count `n` by
`n · (d2 / d)` with `d = now − b.Time` and `d2 = min(b.Time +
counter.interval, now) − intervalStart`, and sets that bucket's duration
contribution to `now − intervalStart`, where `now` is the walk's current
cursor — the start time of the previously processed bucket, equal to the
original query instant only while the first contributing bucket is being
processed — before adding `(n, d)` to the totals and moving the cursor to
`b.Time`. -/
theorem queryLoop_partial_bucket (rl : rollingCounter) (key : List Nat)
    (latest : Nat) (intervalStart : Int) (b : sketchWithTime)
    (rest : List sketchWithTime) (isLast : Bool) (now interval : Int)
    (tc : ℚ) (td : Int)
    (h1 : 0 < interval) (h2 : 0 < now - b.Time) (h3 : b.Time < intervalStart)
    (h4 : (now - b.Time) - (min (b.Time + rl.Interval) now - intervalStart)
            ≤ rl.Interval) :
    rl.queryLoop key latest intervalStart (b :: rest) isLast now interval tc td
      = rl.queryLoop key latest intervalStart rest false b.Time
          (interval - (now - b.Time))
          (tc + (if isLast && latest != 0 then (latest : ℚ)
                 else (b.Query key : ℚ))
              * ((min (b.Time + rl.Interval) now - intervalStart : Int) : ℚ)
              / ((now - b.Time : Int) : ℚ))
          (td + (now - intervalStart)) := by
  have hmin : (if b.Time + rl.Interval > now then now else b.Time + rl.Interval)
      = min (b.Time + rl.Interval) now := by
    rcases le_or_lt (b.Time + rl.Interval) now with h | h
    · rw [if_neg (by omega), min_eq_left h]
    · rw [if_pos h, min_eq_right (le_of_lt h)]
  simp only [rollingCounter.queryLoop, hmin]
  rw [if_neg (by omega), if_neg (by omega), if_pos h3, if_neg (by omega)]

/-- Witness for `queryLoop_partial_bucket`: the inner step of the
counterexample counter's walk, at cursor 60 s. -/
theorem queryLoop_partial_bucket_witness :
    (0 : Int) < 30 * second ∧
    (0 : Int) < 60 * second - 0 ∧
    (0 : Int) < 30 * second ∧
    (60 * second - 0) - (min (0 + c1Counter.Interval) (60 * second)
        - 30 * second) ≤ c1Counter.Interval ∧
    c1Counter.queryLoop keyBytes 0 (30 * second)
        [{ CountSketch := none, Time := 0 }] false (60 * second)
        (30 * second) 0 (30 * second)
      = c1Counter.queryLoop keyBytes 0 (30 * second) [] false 0
          (30 * second - (60 * second - 0))
          (0 + (if (false && (0 : Nat) != 0) then ((0 : Nat) : ℚ)
                else ((sketchWithTime.Query { CountSketch := none, Time := 0 }
                        keyBytes : Nat) : ℚ))
              * ((min (0 + c1Counter.Interval) (60 * second)
                    - 30 * second : Int) : ℚ)
              / ((60 * second - 0 : Int) : ℚ))
          (30 * second + (60 * second - 30 * second)) :=
  ⟨by decide, by decide, by decide, by simp [c1Counter, minuteNs, second],
   queryLoop_partial_bucket c1Counter keyBytes 0 (30 * second)
     { CountSketch := none, Time := 0 } [] false (60 * second) (30 * second)
     0 (30 * second) (by decide) (by decide) (by decide)
     (by simp [c1Counter, minuteNs, second])⟩

/-- Claim C9 is false as stated: no ConfigurationError is surfaced — the
constructors have no error channel in the source and perform no
validation.  `RollingCounter` with `numIntervals = 0` returns an ordinary
counter; `RollupCounter` with a single duration (fewer than two) returns a
counter with no levels rather than an error; with descending durations
(60 s, 30 s) it returns a counter with one level. -/
theorem constructors_no_validation :
    RollingCounter 0 0 minuteNs 0
      = { Epsilon := 0, Delta := 0, Interval := minuteNs, NumIntervals := 0,
          buckets := [] } ∧
    RollupCounter 0 0 [minuteNs] = some { Levels := [] } ∧
    (RollupCounter 0 0 [minuteNs, 30 * second]).map
        (fun rc => rc.Levels.length) = some 1 :=
  ⟨rfl, rfl, rfl⟩

/-- Claim C9 (amended): construction performs no validation and surfaces
no ConfigurationError.  `RollingCounter` returns a counter carrying
exactly the given parameters for every input, including
`numIntervals ≤ 0`.  `RollupCounter` returns a counter with one level per
adjacent pair of durations — hence an empty level list for a single
duration — for every duration list that is non-empty and has no zero in a
divisor position (every position but the last), ascending or not; for an
empty duration list, or a zero divisor duration, it panics (Go `make`
with negative length, resp. integer division by zero, modelled as `none`)
rather than surfacing a ConfigurationError. -/
theorem constructors_total (epsilon delta : ℚ) (interval num : Int)
    (durations : List Int) :
    RollingCounter epsilon delta interval num
      = { Epsilon := epsilon, Delta := delta, Interval := interval,
          NumIntervals := num, buckets := [] } ∧
    (durations ≠ [] → durations.dropLast.contains 0 = false →
      (RollupCounter epsilon delta durations).map
          (fun rc => rc.Levels.length) = some (durations.length - 1)) ∧
    RollupCounter epsilon delta [] = none ∧
    (durations.dropLast.contains 0 = true →
      RollupCounter epsilon delta durations = none) := by
  refine ⟨rfl, fun h1 h2 => ?_, rfl, fun h => ?_⟩
  · rw [RollupCounter, if_neg (by simp [h1]),
      if_neg (by rw [h2]; exact Bool.false_ne_true)]
    simp only [Option.map_some', List.length_map, List.length_zip,
      List.length_tail, Option.some.injEq]
    omega
  · cases durations with
    | nil => simp [List.dropLast] at h
    | cons a l =>
      rw [RollupCounter, if_neg (by simp), if_pos h]

/-- Witness for `constructors_total`: the descending list (60 s, 30 s) is
non-empty with no zero divisor and yields one level; the list with a zero
divisor hits the division-by-zero panic path. -/
theorem constructors_total_witness :
    ([minuteNs, 30 * second] ≠ ([] : List Int)) ∧
    ([minuteNs, 30 * second].dropLast.contains 0 = false) ∧
    (RollupCounter 0 0 [minuteNs, 30 * second]).map
        (fun rc => rc.Levels.length)
      = some ([minuteNs, 30 * second].length - 1) ∧
    ([0, minuteNs].dropLast.contains 0 = true) ∧
    RollupCounter 0 0 [0, minuteNs] = none :=
  ⟨by decide, by decide,
   (constructors_total 0 0 0 0 [minuteNs, 30 * second]).2.1
     (by decide) (by decide),
   by decide,
   (constructors_total 0 0 0 0 [0, minuteNs]).2.2.2 (by decide)⟩

/-- Claim C10: the sketch's `Count` accepts a signed delta and converts it
to `uint64` without validation: `Count(key, −1)` on a fresh sketch adds
`2^64 − 1` (i.e. `2^64 + delta`) to each touched cell and returns
`2^64 − 1`, and the subsequent `Query` reports `2^64 − 1` — the negative
delta is silently wrapped, not rejected. -/
theorem count_negative_delta_wraps :
    uint64OfInt (-1) = 2 ^ 64 - 1 ∧
    ((NewSketch 0 0).Count keyBytes (-1)).2 = 2 ^ 64 - 1 ∧
    (((NewSketch 0 0).Count keyBytes (-1)).1).Query keyBytes = 2 ^ 64 - 1 :=
  ⟨by decide, by decide, by decide⟩

/-- Claim C7: for every sketch state with positive width (as every
constructed sketch has) and every non-negative delta, `Count(k, d)`
returns exactly the value `Query(k)` returns on the post-update state:
both traverse the same `Depth` cells — row `i`, column
`hash(kernel, i) mod Width` — and take the minimum of the same post-update
cell values. -/
theorem count_eq_query_after (r : fnvSketch) (key : List Nat) (delta : Int)
    (hW : 0 < r.Width) (_hd : 0 ≤ delta) :
    (r.Count key delta).2 = ((r.Count key delta).1).Query key := by
  have hpair : (List.range r.Depth).Pairwise
      (fun a b => r.cell (multihash key) a ≠ r.cell (multihash key) b) :=
    (List.pairwise_lt_range r.Depth).imp
      (fun hab => cell_ne_of_row_ne r.Width hW
        (fun i => hashKernel.hash (multihash key) i) (Nat.ne_of_lt hab))
  simp only [fnvSketch.Count, fnvSketch.Query]
  exact countFold_min (r.cell (multihash key)) (uint64OfInt delta)
    (List.range r.Depth) (r.Matrix, maxUint64) hpair

/-- Witness for `count_eq_query_after`: a freshly constructed sketch and
delta 5. -/
theorem count_eq_query_after_witness :
    0 < (NewSketch 0 0).Width ∧ (0 : Int) ≤ 5 ∧
    ((NewSketch 0 0).Count keyBytes 5).2
      = (((NewSketch 0 0).Count keyBytes 5).1).Query keyBytes :=
  ⟨by decide, by decide,
   count_eq_query_after (NewSketch 0 0) keyBytes 5 (by decide) (by decide)⟩

/-- Claim C4: rollup `Query(key, interval)` walks the levels finest to
coarsest; at each level it invokes that level's rate walk with
`latestOverride = 0` obtaining `(n_i, d_i)`, adds `n_i` to the count total
and `d_i` to the duration total, moves the cursor backward by `d_i` and
shrinks the remaining interval by `d_i`, stopping when the remaining
interval is ≤ 0 or the levels are consumed; the final result is
`(totalCount / totalDuration) · 1 second`, or 0 when `totalDuration = 0`.
Stated as: the source's `Query` coincides with `rollupQuerySpec`, the walk
transcribed from the specification's words. -/
theorem rollup_query_walks_levels (rc : rollupCounter) (now : Int)
    (key : List Nat) (interval : Int) :
    rc.Query now key interval = rollupQuerySpec rc now key interval := by
  simp only [rollupCounter.Query, rollupQuerySpec]
  rw [queryLevels_eq_foldl]

/-- Claim C5: a rolling counter constructed with `numIntervals ≥ 1` never
holds more than `numIntervals` buckets, across any sequence of `Count` and
`Query` operations: `Count` appends a bucket only when the list is empty
or rotation is due, shifts the oldest out instead of growing once the list
holds at least `numIntervals` entries, and `Query` performs no writes. -/
theorem bucket_cap (epsilon delta : ℚ) (interval num : Int)
    (h : 1 ≤ num) (ops : List rateOp) :
    (((RollingCounter epsilon delta interval num).applyOps ops).buckets.length : Int)
      ≤ num := by
  have hs := applyOps_spec ops (RollingCounter epsilon delta interval num)
  refine hs.2 h ?_
  simp only [RollingCounter, List.length_nil, Nat.cast_zero]
  omega

/-- Witness for `bucket_cap`: three rotating writes against a cap of 2. -/
theorem bucket_cap_witness :
    (1 : Int) ≤ 2 ∧
    (((RollingCounter 0 0 minuteNs 2).applyOps
        [rateOp.countOp keyBytes 1 0 0,
         rateOp.countOp keyBytes 1 minuteNs 0,
         rateOp.countOp keyBytes 1 (2 * minuteNs) 0]).buckets.length : Int)
      ≤ 2 :=
  ⟨by decide, bucket_cap 0 0 minuteNs 2 (by decide) _⟩

/-- Claim C8: decoding the encoding of a rolling counter (into any
receiver) restores a counter with identical epsilon, delta, interval,
numIntervals and bucket list, and hence identical `Query` answers for
every key, query interval and clock instant. -/
theorem gob_roundtrip (rl rl0 : rollingCounter) (key : List Nat)
    (now interval : Int) :
    rl0.GobDecode rl.GobEncode = rl ∧
    (rl0.GobDecode rl.GobEncode).Query now key interval
      = rl.Query now key interval := by
  have h : rl0.GobDecode rl.GobEncode = rl := by cases rl; rfl
  exact ⟨h, by rw [h]⟩

/-- Claim C3 (rate floor): for every rolling and rollup counter, every key
and every clock instant, `Query(k, interval)` returns exactly 0 whenever
`interval < 1 s`; the rate walk itself returns `(0, 0)` whenever its
accumulated covered duration is below one second; and the public `Query`
and `Count` of both counters map a zero covered duration to the rate 0. -/
theorem rate_floor :
    (∀ (rl : rollingCounter) (now : Int) (key : List Nat) (interval : Int),
        interval < second → rl.Query now key interval = 0) ∧
    (∀ (rc : rollupCounter) (now : Int) (key : List Nat) (interval : Int),
        interval < second → rc.Query now key interval = 0) ∧
    (∀ (rl : rollingCounter) (key : List Nat) (now interval : Int)
        (latest : Nat),
        (rl.query key now interval latest).2 < second →
          rl.query key now interval latest = (0, 0)) ∧
    (∀ (rl : rollingCounter) (now : Int) (key : List Nat) (interval : Int),
        (rl.query key now interval 0).2 = 0 → rl.Query now key interval = 0) ∧
    (∀ (rl : rollingCounter) (now : Int) (key : List Nat)
        (delta interval : Int),
        (rl.count key delta now interval).2.2 = 0 →
          (rl.Count now key delta interval).2 = 0) ∧
    (∀ (rc : rollupCounter) (now : Int) (key : List Nat) (interval : Int),
        (rollupCounter.queryLevels key rc.Levels now interval (0, 0)).2 = 0 →
          rc.Query now key interval = 0) := by
  refine ⟨fun rl now key interval h => ?_, fun rc now key interval h => ?_,
    fun rl key now interval latest h => ?_, fun rl now key interval h => ?_,
    fun rl now key delta interval h => ?_, fun rc now key interval h => ?_⟩
  · simp only [rollingCounter.Query]
    by_cases hemp : rl.buckets.isEmpty
    · rw [if_pos hemp]
    · rw [if_neg hemp, query_interval_floor rl key now interval 0 h]
      simp
  · simp only [rollupCounter.Query]
    rw [queryLevels_floor key rc.Levels now interval 0 0 h]
    simp
  · simp only [rollingCounter.query] at h ⊢
    by_cases hf : (rl.queryLoop key latest (now - interval)
        rl.buckets.reverse true now interval 0 0).2 < second
    · rw [if_pos hf]
    · rw [if_neg hf] at h
      exact absurd h hf
  · simp only [rollingCounter.Query]
    by_cases hemp : rl.buckets.isEmpty
    · rw [if_pos hemp]
    · rw [if_neg hemp, if_pos h]
  · simp only [rollingCounter.Count]
    rw [if_pos h]
  · simp only [rollupCounter.Query]
    rw [if_pos h]

/-- Witness for `rate_floor`: each clause applied at a concrete counter
with its hypothesis discharged by evaluation. -/
theorem rate_floor_witness :
    ((0 : Int) < second ∧ tCounter1.Query 0 keyBytes 0 = 0) ∧
    ((0 : Int) < second ∧ tRollup.Query 0 keyBytes 0 = 0) ∧
    ((tCounter1.query keyBytes 0 0 0).2 < second ∧
      tCounter1.query keyBytes 0 0 0 = (0, 0)) ∧
    ((tCounter1.query keyBytes 0 0 0).2 = 0 ∧
      tCounter1.Query 0 keyBytes 0 = 0) ∧
    ((tCounter1.count keyBytes 1 0 0).2.2 = 0 ∧
      (tCounter1.Count 0 keyBytes 1 0).2 = 0) ∧
    (((rollupCounter.queryLevels keyBytes tRollup.Levels 0 0 (0, 0)).2 = 0 ∧
      tRollup.Query 0 keyBytes 0 = 0)) :=
  ⟨⟨by decide, rate_floor.1 tCounter1 0 keyBytes 0 (by decide)⟩,
   ⟨by decide, rate_floor.2.1 tRollup 0 keyBytes 0 (by decide)⟩,
   ⟨by decide, rate_floor.2.2.1 tCounter1 keyBytes 0 0 0 (by decide)⟩,
   ⟨by decide, rate_floor.2.2.2.1 tCounter1 0 keyBytes 0 (by decide)⟩,
   ⟨by decide, rate_floor.2.2.2.2.1 tCounter1 0 keyBytes 1 0 (by decide)⟩,
   ⟨by decide, rate_floor.2.2.2.2.2 tRollup 0 keyBytes 0 (by decide)⟩⟩
